import Mathlib

set_option maxRecDepth 100000

/-!
Verification of the autobrr readarr push client (src/pkg/arr/readarr/readarr.go)
and of the PolishTracker indexer definition (the YAML definition file).

The readarr package's helper file (the `postBody`/`get` transport helpers and
the `BadRequestResponse` / `PushResponse` / `SystemStatusResponse` type
declarations) is not among the analysed sources; those parts are modelled from
the spec, as marked on each definition.  Everything else is translated directly
from the source.
-/

namespace Autobrr

/-- A JSON value, as the shape `json.Unmarshal` distinguishes: null, booleans,
numbers, strings, arrays and objects (an object is an ordered field list). -/
inductive Json where
  | null : Json
  | bool (b : Bool) : Json
  | num (n : Int) : Json
  | str (s : String) : Json
  | arr (elems : List Json) : Json
  | obj (fields : List (String × Json)) : Json

/-- A raw HTTP response body: either text that parses as JSON, or text that is
not JSON at all (every unmarshal of it fails). -/
inductive RawBody where
  | json (j : Json) : RawBody
  | invalid (text : String) : RawBody

/-- `errors.Wrap err msg` renders as "msg: err". -/
def wrapErr (msg e : String) : String := msg ++ ": " ++ e

/-- Left-to-right effectful map over `Except`, as `json.Unmarshal` decodes the
elements of an array: the first failing element fails the whole decode. -/
def mapMExcept {α β : Type} (f : α → Except String β) : List α → Except String (List β)
  | [] => Except.ok []
  | a :: as =>
    match f a with
    | Except.error e => Except.error e
    | Except.ok b =>
      match mapMExcept f as with
      | Except.error e => Except.error e
      | Except.ok bs => Except.ok (b :: bs)

/-- Modelled from the spec: one element of readarr's bad-request response body,
"a bad-request array of rejection objects (each exposing a human-readable
description)".  The Go struct declaration is not among the analysed sources, so
the object is kept as its decoded JSON fields. -/
structure BadRequestResponse where
  fields : List (String × Json)

/-- Modelled from the spec: the rejection object's rendered human-readable
description (the Go `String()` method, not among the analysed sources), built
from the object's fields. -/
def BadRequestResponse.render (r : BadRequestResponse) : String :=
  let get (k : String) : String :=
    match List.lookup k r.fields with
    | some (Json.str s) => s
    | _ => ""
  get "propertyName" ++ ": " ++ get "errorMessage"

/-- Decoding one element of a `[]*BadRequestResponse` unmarshal target: the
element must be a JSON object; its fields are kept. -/
def decodeBadRequestItem (j : Json) : Except String BadRequestResponse :=
  match j with
  | Json.obj fields => Except.ok { fields := fields }
  | _ => Except.error "json: cannot unmarshal value into BadRequestResponse"

/-- Decoding the body as `[]*BadRequestResponse`: the body must be a JSON array
of objects; any other shape is a parse failure. -/
def decodeBadRequestList (body : RawBody) : Except String (List BadRequestResponse) :=
  match body with
  | RawBody.json (Json.arr elems) => mapMExcept decodeBadRequestItem elems
  | RawBody.json _ => Except.error "json: cannot unmarshal value into list of BadRequestResponse"
  | RawBody.invalid _ => Except.error "invalid character in response body"

/-- Modelled from the spec: readarr's push response, "a normal-status object
carrying an optional rejection flag and reasons list".  The Go struct
declaration is not among the analysed sources. -/
structure PushResponse where
  rejected : Bool
  rejections : List String

/-- Decoding a JSON value as a Go string. -/
def decodeJsonString (j : Json) : Except String String :=
  match j with
  | Json.str s => Except.ok s
  | _ => Except.error "json: cannot unmarshal value into string"

/-- Decoding the body as a `PushResponse` object: the body must be a JSON
object (or null, which leaves the zero value); an absent "rejected" field
defaults to false, an absent "rejections" field to the empty list; a field of
the wrong type is a parse failure. -/
def decodePushResponse (body : RawBody) : Except String PushResponse :=
  match body with
  | RawBody.json (Json.obj fields) =>
    let rejectedField : Except String Bool :=
      match List.lookup "rejected" fields with
      | none => Except.ok false
      | some (Json.bool b) => Except.ok b
      | some _ => Except.error "json: cannot unmarshal value into bool"
    let rejectionsField : Except String (List String) :=
      match List.lookup "rejections" fields with
      | none => Except.ok []
      | some (Json.arr elems) => mapMExcept decodeJsonString elems
      | some Json.null => Except.ok []
      | some _ => Except.error "json: cannot unmarshal value into list of string"
    match rejectedField with
    | Except.error e => Except.error e
    | Except.ok b =>
      match rejectionsField with
      | Except.error e => Except.error e
      | Except.ok rs => Except.ok { rejected := b, rejections := rs }
  | RawBody.json Json.null => Except.ok { rejected := false, rejections := [] }
  | RawBody.json _ => Except.error "json: cannot unmarshal value into PushResponse"
  | RawBody.invalid _ => Except.error "invalid character in response body"

/-- The result of `Client.Push`, i.e. Go's pair `([]string, error)`:
`failure msg` is `(nil, err)`, `rejections rs` is `(rs, nil)` and `success` is
`(nil, nil)`. -/
inductive PushResult where
  | failure (msg : String) : PushResult
  | rejections (reasons : List String) : PushResult
  | success : PushResult
deriving DecidableEq

/-- The Go pair `([]string, error)` a `PushResult` stands for: first component
the rejection list (none = nil slice), second the error (none = nil error). -/
def PushResult.goPair : PushResult → Option (List String) × Option String
  | PushResult.failure msg => (none, some msg)
  | PushResult.rejections rs => (some rs, none)
  | PushResult.success => (none, none)

/-- `Client.Push` (readarr.go lines 94-124) as a function of the HTTP status
code and response body delivered by the transport: on status 400 the body is
decoded as a rejection-object array and each object's rendered description is
returned as a rejection; on every other status the body is decoded as a
`PushResponse`, whose true rejected flag returns its rejections list and whose
false flag is a successful push; a failed decode is a wrapped error. -/
def pushInterpret (status : Nat) (body : RawBody) : PushResult :=
  if status = 400 then
    match decodeBadRequestList body with
    | Except.error e => PushResult.failure (wrapErr "could not unmarshal data" e)
    | Except.ok responses =>
      PushResult.rejections (responses.map BadRequestResponse.render)
  else
    match decodePushResponse body with
    | Except.error e => PushResult.failure (wrapErr "could not unmarshal data" e)
    | Except.ok pr =>
      if pr.rejected then PushResult.rejections pr.rejections
      else PushResult.success

/-- What the transport collaborator (`postBody`, not among the analysed
sources; modelled from the spec) delivers to `Push`: a status code and body,
or a transport failure such as a timeout. -/
inductive TransportResult where
  | ok (status : Nat) (body : RawBody) : TransportResult
  | transportError (msg : String) : TransportResult

/-- `Client.Push` (readarr.go lines 86-124) including the transport step: a
transport failure is wrapped and returned as an error. -/
def pushWithTransport (t : TransportResult) : PushResult :=
  match t with
  | TransportResult.transportError e =>
      PushResult.failure (wrapErr "could not push release to readarr" e)
  | TransportResult.ok status body => pushInterpret status body

/-- Modelled from the spec: readarr's system/status response object; the Go
struct declaration is not among the analysed sources, so the decoded JSON
fields are kept. -/
structure SystemStatusResponse where
  fields : List (String × Json)

/-- The result of `Client.Test`, i.e. Go's pair `(*SystemStatusResponse, error)`. -/
inductive TestResult where
  | failure (msg : String) : TestResult
  | ok (resp : SystemStatusResponse) : TestResult

/-- Decoding the body as a `SystemStatusResponse` object. -/
def decodeSystemStatus (body : RawBody) : Except String SystemStatusResponse :=
  match body with
  | RawBody.json (Json.obj fields) => Except.ok { fields := fields }
  | RawBody.json Json.null => Except.ok { fields := [] }
  | RawBody.json _ => Except.error "json: cannot unmarshal value into SystemStatusResponse"
  | RawBody.invalid _ => Except.error "invalid character in response body"

/-- `Client.Test` (readarr.go lines 66-84) as a function of the status code and
body: status 401 is the unauthorized error before any decoding; otherwise the
body is decoded as a `SystemStatusResponse`. -/
def testInterpret (status : Nat) (body : RawBody) : TestResult :=
  if status = 401 then TestResult.failure "unauthorized: bad credentials"
  else
    match decodeSystemStatus body with
    | Except.error e => TestResult.failure (wrapErr "could not unmarshal data" e)
    | Except.ok r => TestResult.ok r

/-- A `*log.Logger`; the only distinction the claims need is which writer it
wraps (`io.Discard` or a caller-supplied writer). -/
structure Logger where
  discardOutput : Bool
deriving DecidableEq

/-- `log.New(io.Discard, "", log.LstdFlags)` of readarr.go line 56. -/
def discardLogger : Logger := { discardOutput := true }

/-- `Config` (readarr.go lines 22-32); the Go pointer field `Log *log.Logger`
is an `Option`, `none` standing for nil. -/
structure Config where
  hostname : String
  apiKey : String
  basicAuth : Bool
  username : String
  password : String
  log : Option Logger

/-- The `http.Client` built by `New`: the claims only need its timeout. -/
structure HttpClient where
  timeoutSeconds : Nat

/-- `Client` (readarr.go lines 39-44). -/
structure Client where
  config : Config
  http : HttpClient
  log : Option Logger

/-- `New` (readarr.go lines 47-64): builds an HTTP client with
`Timeout: time.Second * 120`, sets the logger to a discard logger, then
overrides it with `config.Log` when that is non-nil. -/
def New (config : Config) : Client :=
  let c : Client :=
    { config := config
      http := { timeoutSeconds := 120 }
      log := some discardLogger }
  match config.log with
  | some l => { c with log := some l }
  | none => c

/-! ### Template renderer (spec-modelled)

The Go renderer that expands an indexer definition's match templates is not
among the analysed sources; it is modelled from the spec (section 4.3): expand
every double-brace placeholder left-to-right from the captured variables and
settings, substituting the empty string for an absent name. -/

/-- The characters of a placeholder body such as " .baseUrl " reduced to the
referenced name: surrounding spaces are dropped, as is the leading dot. -/
def parsePlaceholderName (cs : List Char) : String :=
  let trimmed :=
    ((cs.dropWhile (fun c => c = ' ')).reverse.dropWhile (fun c => c = ' ')).reverse
  match trimmed with
  | '.' :: name => String.mk name
  | other => String.mk other

/-- Modelled from the spec: look the placeholder's name up among the captured
variables and settings; an absent name substitutes the empty string. -/
def lookupVar (env : List (String × String)) (body : List Char) : List Char :=
  match List.lookup (parsePlaceholderName body) env with
  | some v => v.data
  | none => []

/-- Modelled from the spec: one left-to-right pass over the template.  Outside
a placeholder (`mode = none`) characters are copied and a double opening brace
enters a placeholder; inside one (`mode = some acc`) characters accumulate
until the double closing brace, which substitutes the looked-up value. -/
def renderLoop (env : List (String × String)) :
    Option (List Char) → List Char → List Char
  | none, [] => []
  | none, '\x7b' :: '\x7b' :: rest => renderLoop env (some []) rest
  | none, c :: rest => c :: renderLoop env none rest
  | some _, [] => []
  | some acc, '\x7d' :: '\x7d' :: rest => lookupVar env acc ++ renderLoop env none rest
  | some acc, c :: rest => renderLoop env (some (acc ++ [c])) rest

/-- Modelled from the spec: the Template Renderer,
`render(template, variables, settings) -> string`; variables and settings are
passed as one name-to-value environment. -/
def render (template : String) (env : List (String × String)) : String :=
  String.mk (renderLoop env none template.data)

/-- The torrenturl match template of the PolishTracker definition
(parse.match.torrenturl in the definition YAML). -/
def polishTorrentUrlTemplate : String :=
  "\x7b\x7b .baseUrl \x7d\x7d/downrss/\x7b\x7b .rsskey \x7d\x7d/\x7b\x7b .torrentId \x7d\x7d"

/-! ### Line matcher (spec-modelled regular-expression engine)

The Go regexp engine that applies an indexer definition's pattern is not among
the analysed sources; the fragment of the regular-expression language the
PolishTracker pattern uses is modelled here with Go's leftmost-first,
greedy-backtracking semantics, per the spec's Line Matcher contract. -/

/-- The regular-expression fragment used by the PolishTracker pattern:
literals, the any-sequence ".*", the digit run "\d+", capture groups and
concatenation. -/
inductive Re where
  | lit (cs : List Char) : Re
  | anyStar : Re
  | digitsPlus : Re
  | group (r : Re) : Re
  | cat (r1 r2 : Re) : Re

/-- Greedy expansion of ".*": try consuming n, n-1, ..., 0 characters of `s`
(longest first), handing the remaining input to the continuation; the first
success wins. -/
def tryStar (s : List Char) (k : List Char → Option (List (List Char))) :
    Nat → Option (List (List Char))
  | 0 => k s
  | n + 1 =>
    match k (s.drop (n + 1)) with
    | some r => some r
    | none => tryStar s k n

/-- The length of the longest digit-only run at the head of the input. -/
def digitRun : List Char → Nat
  | [] => 0
  | c :: rest => if c.isDigit then digitRun rest + 1 else 0

/-- Greedy expansion of a digit run "\d+": try consuming n, n-1, ..., 1
characters (longest first, never zero); the caller passes the length of the
leading digit run, so every consumed character is a digit. -/
def tryPlus (s : List Char) (k : List Char → Option (List (List Char))) :
    Nat → Option (List (List Char))
  | 0 => none
  | n + 1 =>
    match k (s.drop (n + 1)) with
    | some r => some r
    | none => tryPlus s k n

/-- Backtracking matcher in continuation-passing style: `reMatch r s k acc`
matches `r` at the head of `s`, calling `k` with the remaining input and the
capture list extended by the groups of `r`; alternatives are tried in Go's
leftmost-first (greedy-first) order. -/
def reMatch : Re → List Char →
    (List Char → List (List Char) → Option (List (List Char))) →
    List (List Char) → Option (List (List Char))
  | Re.lit cs, s, k, acc =>
    if cs.isPrefixOf s then k (s.drop cs.length) acc else none
  | Re.anyStar, s, k, acc => tryStar s (fun s2 => k s2 acc) s.length
  | Re.digitsPlus, s, k, acc => tryPlus s (fun s2 => k s2 acc) (digitRun s)
  | Re.group r, s, k, acc =>
    reMatch r s
      (fun s2 inner => k s2 (acc ++ [s.take (s.length - s2.length)] ++ inner)) []
  | Re.cat r1 r2, s, k, acc =>
    reMatch r1 s (fun s2 acc2 => reMatch r2 s2 k acc2) acc

/-- Unanchored search, as Go's FindStringSubmatch: try the pattern at each
start position left to right and return the capture groups of the first
position (and, within it, the first backtracking alternative) that matches. -/
def reSearch (r : Re) : List Char → Option (List (List Char))
  | [] => reMatch r [] (fun _ acc => some acc) []
  | c :: t =>
    match reMatch r (c :: t) (fun _ acc => some acc) [] with
    | some caps => some caps
    | none => reSearch r t

/-- The PolishTracker announce pattern (parse.lines.pattern in the definition
YAML), translated construct by construct; note the double spaces the pattern
text carries around "||" and before "Torrent". -/
def polishPattern : Re :=
  Re.cat (Re.lit "::: PolishTracker :::  Torrent ( ".data)
  (Re.cat (Re.group Re.anyStar)
  (Re.cat (Re.lit " )  ||  Kategoria: ( ".data)
  (Re.cat (Re.group Re.anyStar)
  (Re.cat (Re.lit " )  ||  Rozmiar: ( ".data)
  (Re.cat (Re.group Re.anyStar)
  (Re.cat (Re.lit " )  ||  Link: ( ".data)
  (Re.cat (Re.group (Re.cat (Re.lit "https://".data) Re.anyStar))
  (Re.cat (Re.lit "/torrents/".data)
  (Re.cat (Re.group Re.digitsPlus)
          (Re.lit " )".data))))))))))

/-- The declared variable names of the PolishTracker pattern (parse.lines.vars
in the definition YAML), in order. -/
def polishVars : List String :=
  ["torrentName", "category", "torrentSize", "baseUrl", "torrentId"]

/-- Modelled from the spec: the Line Matcher applied to the PolishTracker
definition — search the line with the definition's pattern and zip the ordered
capture groups with the declared variable names; `none` is the NoMatch
outcome. -/
def matchPolish (line : String) : Option (List (String × String)) :=
  (reSearch polishPattern line.data).map
    (fun caps => polishVars.zip (caps.map String.mk))

/-- Whether `needle` occurs as a contiguous run anywhere in the input. -/
def containsSeq (needle : List Char) : List Char → Bool
  | [] => needle.isPrefixOf []
  | c :: t => needle.isPrefixOf (c :: t) || containsSeq needle t

/-- The push-response body with rejected flag `b` and rejections list `rs`,
for instance the spec's 200-status example bodies. -/
def pushBody (b : Bool) (rs : List String) : RawBody :=
  RawBody.json (Json.obj
    [("rejected", Json.bool b), ("rejections", Json.arr (rs.map Json.str))])

/-- The announce line exactly as the claim quotes it: the fields are separated
by single spaces. -/
def polishClaimLine : String :=
  "::: PolishTracker ::: Torrent ( Some.Movie.2017.PLSUB.1080p.BDRip.x264-GROUP ) || Kategoria: ( movies HD ) || Rozmiar: ( 2.14 GB ) || Link: ( https://pte.nu/torrents/000000 )"

/-- The announce line with the double-space field separators the definition's
documented test lines carry. -/
def polishTestLine : String :=
  "::: PolishTracker :::  Torrent ( Some.Movie.2017.PLSUB.1080p.BDRip.x264-GROUP )  ||  Kategoria: ( movies HD )  ||  Rozmiar: ( 2.14 GB )  ||  Link: ( https://pte.nu/torrents/000000 )"

/-- The literal marker text of claim C9. -/
def polishMarker : String := "::: PolishTracker :::"

/-! ## Helper lemmas -/

/-- Decoding a JSON array built from objects as `[]*BadRequestResponse`
succeeds and keeps each object's fields. -/
theorem decodeBadRequestList_objs (objs : List (List (String × Json))) :
    decodeBadRequestList (RawBody.json (Json.arr (objs.map Json.obj)))
      = Except.ok (objs.map (fun fields => { fields := fields })) := by
  show mapMExcept decodeBadRequestItem (objs.map Json.obj)
      = Except.ok (objs.map (fun fields => { fields := fields }))
  induction objs with
  | nil => rfl
  | cons a t ih => simp [mapMExcept, decodeBadRequestItem, ih]

/-- Decoding a JSON array built from strings as a Go string slice succeeds. -/
theorem mapMExcept_str (rs : List String) :
    mapMExcept decodeJsonString (rs.map Json.str) = Except.ok rs := by
  induction rs with
  | nil => rfl
  | cons a t ih => simp [mapMExcept, decodeJsonString, ih]

/-- Decoding a push-response body recovers its flag and rejections list. -/
theorem decodePushResponse_pushBody (b : Bool) (rs : List String) :
    decodePushResponse (pushBody b rs)
      = Except.ok { rejected := b, rejections := rs } := by
  simp [decodePushResponse, pushBody, mapMExcept_str, List.lookup]

/-- A successful match of a pattern that starts with a literal finds that
literal at the head of the input. -/
theorem reMatch_cat_lit_head {cs : List Char} {r : Re} {s : List Char}
    {k : List Char → List (List Char) → Option (List (List Char))}
    {acc v : List (List Char)}
    (h : reMatch (Re.cat (Re.lit cs) r) s k acc = some v) :
    cs.isPrefixOf s = true := by
  by_cases hp : cs.isPrefixOf s = true
  · exact hp
  · simp [reMatch, hp] at h

/-- A successful search with a pattern that starts with a literal finds that
literal at the head of some suffix of the input. -/
theorem reSearch_cat_lit_head {cs : List Char} {r : Re} {s : List Char}
    {v : List (List Char)}
    (h : reSearch (Re.cat (Re.lit cs) r) s = some v) :
    ∃ t, t <:+ s ∧ cs.isPrefixOf t = true := by
  induction s with
  | nil =>
    rw [reSearch] at h
    exact ⟨[], List.suffix_refl [], reMatch_cat_lit_head h⟩
  | cons c t ih =>
    rw [reSearch] at h
    cases hm : reMatch (Re.cat (Re.lit cs) r) (c :: t) (fun _ acc => some acc) [] with
    | some caps =>
      exact ⟨c :: t, List.suffix_refl _, reMatch_cat_lit_head hm⟩
    | none =>
      rw [hm] at h
      obtain ⟨t2, hsuf, hpre⟩ := ih h
      exact ⟨t2, hsuf.trans (List.suffix_cons c t), hpre⟩

/-- If the needle heads a suffix of the input, the input contains it. -/
theorem containsSeq_of_suffix {needle t s : List Char} (hsuf : t <:+ s)
    (hpre : needle.isPrefixOf t = true) : containsSeq needle s = true := by
  induction s with
  | nil =>
    rw [List.suffix_nil] at hsuf
    subst hsuf
    simpa [containsSeq] using hpre
  | cons c s2 ih =>
    rcases List.suffix_cons_iff.mp hsuf with h1 | h2
    · subst h1
      simp [containsSeq, hpre]
    · simp [containsSeq, ih h2]

/-- A prefix of a list heading the input also heads the input. -/
theorem prefix_isPrefixOf_trans {a b t : List Char} (h1 : a <+: b)
    (h2 : b.isPrefixOf t = true) : a.isPrefixOf t = true := by
  rw [ List.isPrefixOf_iff_prefix] at h2 ⊢
  exact h1.trans h2

/-! ## Claim theorems -/

/-- Claim C1 fails on the code: `Push` has no 401 branch — a 401 response whose
body is the empty JSON object is interpreted as a successful (accepted) push
with nil rejections and nil error, not as an unauthorized outcome. -/
theorem c1_push_401_not_unauthorized :
    pushInterpret 401 (RawBody.json (Json.obj [])) = PushResult.success := by
  rfl

/-- Claim C1 (amended): a 401 status yields the unauthorized error for the Test
operation regardless of the body, while Push does not special-case 401 and
interprets a 401 response exactly as it interprets a 200 response. -/
theorem c1_unauthorized_amended (body : RawBody) :
    testInterpret 401 body = TestResult.failure "unauthorized: bad credentials" ∧
    pushInterpret 401 body = pushInterpret 200 body := by
  exact ⟨rfl, rfl⟩

/-- Claim C2: a 400 response whose body parses as a JSON array of rejection
objects yields the rejection reasons that are exactly the objects' rendered
descriptions, in the array's order — in particular, one object yields exactly
one reason. -/
theorem c2_push_400_rejection_reasons (objs : List (List (String × Json))) :
    pushInterpret 400 (RawBody.json (Json.arr (objs.map Json.obj)))
      = PushResult.rejections
          (objs.map (fun fields => BadRequestResponse.render { fields := fields })) ∧
    (objs.map (fun fields => BadRequestResponse.render { fields := fields })).length
      = objs.length := by
  refine ⟨?_, by simp⟩
  simp [pushInterpret, decodeBadRequestList_objs, List.map_map, Function.comp]

/-- Claim C3: a 200 response whose parsed body has a false rejected flag or no
flag at all is the accepted outcome (no rejections, no error), and one whose
flag is true is the rejected outcome carrying exactly the body's rejections
list. -/
theorem c3_push_200_rejected_flag (rs : List String) :
    pushInterpret 200 (pushBody true rs) = PushResult.rejections rs ∧
    pushInterpret 200 (pushBody false rs) = PushResult.success ∧
    pushInterpret 200 (RawBody.json (Json.obj [])) = PushResult.success := by
  refine ⟨?_, ?_, rfl⟩ <;> simp [pushInterpret, decodePushResponse_pushBody]

/-- Claim C4: for every status code, when the body fails to decode as the shape
that status expects — the rejection-object array for 400, the rejected-flag
object for any other status — Push returns the error outcome wrapping the
parse failure, which carries no rejection list. -/
theorem c4_parse_failure_is_error (status : Nat) (body : RawBody) (e : String)
    (h : (status = 400 ∧ decodeBadRequestList body = Except.error e) ∨
         (status ≠ 400 ∧ decodePushResponse body = Except.error e)) :
    pushInterpret status body
      = PushResult.failure (wrapErr "could not unmarshal data" e) ∧
    (pushInterpret status body).goPair.1 = none := by
  rcases h with ⟨h400, hdec⟩ | ⟨hne, hdec⟩
  · subst h400
    refine ⟨?_, ?_⟩ <;> simp [pushInterpret, hdec, PushResult.goPair]
  · refine ⟨?_, ?_⟩ <;> simp [pushInterpret, hne, hdec, PushResult.goPair]

/-- Witness for claim C4: a 400 response whose body is a JSON object rather
than an array fails to parse and is returned as an error. -/
theorem c4_parse_failure_is_error_witness :
    pushInterpret 400 (RawBody.json (Json.obj []))
      = PushResult.failure (wrapErr "could not unmarshal data"
          "json: cannot unmarshal value into list of BadRequestResponse") ∧
    (pushInterpret 400 (RawBody.json (Json.obj []))).goPair.1 = none :=
  c4_parse_failure_is_error 400 (RawBody.json (Json.obj []))
    "json: cannot unmarshal value into list of BadRequestResponse"
    (Or.inl ⟨rfl, rfl⟩)

/-- Claim C5: both rejection-producing branches — the 400 rejection-array
branch and the true rejected-flag branch — return the rejection reasons with a
nil error: in the Go result pair the rejection list is present and the error
component is nil. -/
theorem c5_rejected_with_nil_error
    (objs : List (List (String × Json))) (rs : List String) :
    ((pushInterpret 400 (RawBody.json (Json.arr (objs.map Json.obj)))).goPair.2
        = none ∧
     ((pushInterpret 400 (RawBody.json (Json.arr (objs.map Json.obj)))).goPair.1).isSome
        = true) ∧
    ((pushInterpret 200 (pushBody true rs)).goPair.2 = none ∧
     (pushInterpret 200 (pushBody true rs)).goPair.1 = some rs) := by
  constructor
  · constructor <;>
      simp [pushInterpret, decodeBadRequestList_objs, PushResult.goPair]
  · constructor <;>
      simp [pushInterpret, decodePushResponse_pushBody, PushResult.goPair]

/-- Claim C6: for every Config, New builds the HTTP client with a 120-second
timeout — a bounded timeout on the order of minutes — and a transport failure
reported by the collaborator (such as hitting that timeout) surfaces from Push
as a wrapped error outcome rather than a hang. -/
theorem c6_timeout_bounded (config : Config) (msg : String) :
    (New config).http.timeoutSeconds = 120 ∧
    0 < (New config).http.timeoutSeconds ∧
    (New config).http.timeoutSeconds ≤ 600 ∧
    pushWithTransport (TransportResult.transportError msg)
      = PushResult.failure (wrapErr "could not push release to readarr" msg) := by
  have h : (New config).http.timeoutSeconds = 120 := by
    unfold New
    cases config.log <;> rfl
  refine ⟨h, ?_, ?_, rfl⟩ <;> rw [h] <;> omega

/-- Claim C7: rendering the PolishTracker torrenturl template with the captured
baseUrl and torrentId variables and the rsskey setting produces exactly
"https://pte.nu/downrss/ABC123/000000". -/
theorem c7_render_torrenturl :
    render polishTorrentUrlTemplate
        [("baseUrl", "https://pte.nu"), ("torrentId", "000000"), ("rsskey", "ABC123")]
      = "https://pte.nu/downrss/ABC123/000000" := by
  decide

/-- Claim C8 fails on the code: the announce line quoted in the claim separates
its fields with single spaces, while the definition's pattern requires the
literal double spaces its documented test lines carry, so the quoted line does
not match at all. -/
theorem c8_single_spaced_line_no_match : matchPolish polishClaimLine = none := by
  decide

/-- Claim C8 (amended): with the double-space field separators of the
definition's documented test lines, the announce line matches and yields
exactly the expected variable map, zipping the five capture groups in order
with the five declared variable names. -/
theorem c8_match_yields_variables :
    matchPolish polishTestLine
      = some [("torrentName", "Some.Movie.2017.PLSUB.1080p.BDRip.x264-GROUP"),
              ("category", "movies HD"), ("torrentSize", "2.14 GB"),
              ("baseUrl", "https://pte.nu"), ("torrentId", "000000")] := by
  decide

/-- Claim C9: a line that does not contain the literal text
"::: PolishTracker :::" never matches the PolishTracker definition: the
matcher returns none, the expected NoMatch outcome (the matcher is total, so
no definition error can arise). -/
theorem c9_no_marker_no_match (line : String)
    (h : containsSeq polishMarker.data line.data = false) :
    matchPolish line = none := by
  unfold matchPolish
  cases hs : reSearch polishPattern line.data with
  | none => rfl
  | some caps =>
    exfalso
    have hs2 : reSearch
        (Re.cat (Re.lit "::: PolishTracker :::  Torrent ( ".data)
          (Re.cat (Re.group Re.anyStar)
          (Re.cat (Re.lit " )  ||  Kategoria: ( ".data)
          (Re.cat (Re.group Re.anyStar)
          (Re.cat (Re.lit " )  ||  Rozmiar: ( ".data)
          (Re.cat (Re.group Re.anyStar)
          (Re.cat (Re.lit " )  ||  Link: ( ".data)
          (Re.cat (Re.group (Re.cat (Re.lit "https://".data) Re.anyStar))
          (Re.cat (Re.lit "/torrents/".data)
          (Re.cat (Re.group Re.digitsPlus)
                  (Re.lit " )".data)))))))))))
        line.data = some caps := hs
    obtain ⟨t, hsuf, hpre⟩ := reSearch_cat_lit_head hs2
    have hm : polishMarker.data <+: "::: PolishTracker :::  Torrent ( ".data := by
      decide
    have : containsSeq polishMarker.data line.data = true :=
      containsSeq_of_suffix hsuf (prefix_isPrefixOf_trans hm hpre)
    rw [h] at this
    exact Bool.false_ne_true this

/-- Witness for claim C9 at a concrete line lacking the marker. -/
theorem c9_no_marker_no_match_witness :
    containsSeq polishMarker.data "a random chat line".data = false ∧
    matchPolish "a random chat line" = none :=
  ⟨by decide, c9_no_marker_no_match "a random chat line" (by decide)⟩

/-- Claim C10: for every Config, including one whose Log field is nil, the
client New builds has a non-nil logger: the supplied logger when one is given
and the discard logger otherwise, so every logging call inside Test and Push
has a logger to call. -/
theorem c10_logger_never_nil (config : Config) :
    (New config).log.isSome = true ∧
    (New config).log = some (config.log.getD discardLogger) := by
  unfold New
  cases config.log <;> simp

end Autobrr
